import Mathlib

/-!
Shallow embedding of the `biokinetics` reaction-network compiler
(`kinetics/containers.py`, `kinetics/reactions.py`, `kinetics/solvers.py`).

Python floats are modelled as rationals (ℚ), Python dicts as
insertion-ordered association lists, Python sets as lists with
deduplicating insertion (membership by dataclass field equality),
numpy arrays as nested lists of ℚ, and raised exceptions as
`Except` errors.
-/

deriving instance DecidableEq for Except

namespace Biokinetics

/-- `ElementaryReaction` dataclass from `kinetics/containers.py`:
reactants, products, rate-constant value and key, name, and an
optional scaling-group id. -/
structure ElementaryReaction where
  reactants : List String
  products : List String
  rate_const_value : ℚ
  rate_const_key : String
  name : String
  scaling_group_id : Option Int
deriving DecidableEq, Repr

/-- `ElementaryReaction.order`: the number of reactants. -/
def ElementaryReaction.order (r : ElementaryReaction) : Nat :=
  r.reactants.length

/-- `ElementaryReaction.create_reverse_reaction`: swap reactants and
products; synthesize key and name (base + underscore-if-nonempty +
suffix) when no override is given.  The constructed reaction leaves
`scaling_group_id` at its dataclass default `None`. -/
def ElementaryReaction.create_reverse_reaction (r : ElementaryReaction)
    (k_rev_value : ℚ) (k_rev_key : Option String) (rev_name : Option String)
    (default_suffix : String) : ElementaryReaction :=
  let key := match k_rev_key with
    | some k => k
    | none => r.rate_const_key ++ (if r.rate_const_key = "" then "" else "_") ++ default_suffix
  let nm := match rev_name with
    | some m => m
    | none => r.name ++ (if r.name = "" then "" else "_") ++ default_suffix
  { reactants := r.products
    products := r.reactants
    rate_const_value := k_rev_value
    rate_const_key := key
    name := nm
    scaling_group_id := none }

/-- Python-set insertion: add only if not already a member
(dataclass equality on all fields). -/
def setAdd (s : List ElementaryReaction) (r : ElementaryReaction) :
    List ElementaryReaction :=
  if r ∈ s then s else s ++ [r]

/-- `StoichBalanceTerms` from `kinetics/containers.py`: the set of
reactions generating a species and the set consuming it. -/
structure StoichBalanceTerms where
  generation : List ElementaryReaction
  consumption : List ElementaryReaction
deriving DecidableEq, Repr

/-- `StoichBalanceTerms.signed_rxns`: `(+1, r)` for generation members
followed by `(-1, r)` for consumption members. -/
def StoichBalanceTerms.signed_rxns (sbt : StoichBalanceTerms) :
    List (Int × ElementaryReaction) :=
  sbt.generation.map (fun r => ((1 : Int), r)) ++
    sbt.consumption.map (fun r => ((-1 : Int), r))

/-- Association-list lookup, modelling Python `dict` lookup / `dict.get`. -/
def alookup {α β : Type} [DecidableEq α] : List (α × β) → α → Option β
  | [], _ => none
  | (k, v) :: rest, key => if k = key then some v else alookup rest key

/-- `defaultdict(StoichBalanceTerms)` access: update the aggregator at
`species`, default-constructing an empty one on first touch (appended in
first-touch order, as Python dicts preserve insertion order). -/
def updateTerms (terms : List (String × StoichBalanceTerms)) (species : String)
    (f : StoichBalanceTerms → StoichBalanceTerms) :
    List (String × StoichBalanceTerms) :=
  match terms with
  | [] => [(species, f ⟨[], []⟩)]
  | (s, t) :: rest =>
    if s = species then (s, f t) :: rest
    else (s, t) :: updateTerms rest species f

/-- Species registration loop body of `compile_reaction_network`:
every product joins the species' generation set, then every reactant
joins the consumption set (the `SPECIES_BY_CONTRIB` iteration order). -/
def registerSpecies (terms : List (String × StoichBalanceTerms))
    (rxn : ElementaryReaction) : List (String × StoichBalanceTerms) :=
  let afterGen := rxn.products.foldl
    (fun ts s => updateTerms ts s (fun t => ⟨setAdd t.generation rxn, t.consumption⟩))
    terms
  rxn.reactants.foldl
    (fun ts s => updateTerms ts s (fun t => ⟨t.generation, setAdd t.consumption rxn⟩))
    afterGen

/-- The `KeyError` raised by `compile_reaction_network` on a duplicate
rate-constant key; it names the offending key, value and reaction. -/
inductive CompileError where
  | duplicateRateConst (key : String) (value : ℚ) (rxn : ElementaryReaction)
deriving DecidableEq, Repr

/-- Main loop of `compile_reaction_network`: register each reaction's
rate constant (aborting on a duplicate key) and its participating
species. -/
def compileGo : List ElementaryReaction → List (String × ℚ) →
    List (String × StoichBalanceTerms) →
    Except CompileError (List (String × ℚ) × List (String × StoichBalanceTerms))
  | [], rate_consts, terms => .ok (rate_consts, terms)
  | rxn :: rest, rate_consts, terms =>
    if (alookup rate_consts rxn.rate_const_key).isSome then
      .error (.duplicateRateConst rxn.rate_const_key rxn.rate_const_value rxn)
    else
      compileGo rest (rate_consts ++ [(rxn.rate_const_key, rxn.rate_const_value)])
        (registerSpecies terms rxn)

/-- `compile_reaction_network` from `kinetics/reactions.py`.  NOTE: the
source's `return` statement yields only the rate-constant dict and the
contributing-terms dict — the species-index dict promised by its
docstring and type annotation is never constructed or returned. -/
def compile_reaction_network (rxns : List ElementaryReaction) :
    Except CompileError (List (String × ℚ) × List (String × StoichBalanceTerms)) :=
  compileGo rxns [] []

/-! ## Rate-constant tensors -/

/-- The pair of dense tensors built by `compute_rate_const_tensors`
(`rate_const_tensors_by_order`): rank 2 for order 1 and rank 3 for
order 2. -/
structure RateConstTensors where
  t1 : List (List ℚ)
  t2 : List (List (List ℚ))
deriving DecidableEq, Repr

def zeros1 (n : Nat) : List ℚ := List.replicate n 0

def zeros2 (n : Nat) : List (List ℚ) := List.replicate n (zeros1 n)

def zeros3 (n : Nat) : List (List (List ℚ)) := List.replicate n (zeros2 n)

/-- Read entry `[i, j]` of a rank-2 tensor. -/
def get2 (m : List (List ℚ)) (i j : Nat) : ℚ :=
  (m.getD i []).getD j 0

/-- Read entry `[i, j, k]` of a rank-3 tensor. -/
def get3 (m : List (List (List ℚ))) (i j k : Nat) : ℚ :=
  ((m.getD i []).getD j []).getD k 0

/-- numpy assignment `tensor[i, j] = v`. -/
def set2 (m : List (List ℚ)) (i j : Nat) (v : ℚ) : List (List ℚ) :=
  m.set i ((m.getD i []).set j v)

/-- numpy assignment `tensor[i, j, k] = v`. -/
def set3 (m : List (List (List ℚ))) (i j k : Nat) (v : ℚ) :
    List (List (List ℚ)) :=
  m.set i (set2 (m.getD i []) j k v)

/-- Runtime exceptions escaping `compute_rate_const_tensors`:
`KeyError` from an index-map miss, the `TypeError` from assigning into
the `None` returned by `rate_const_tensors_by_order.get(order)` for an
order outside 1 and 2, and numpy `IndexError` for an out-of-range index. -/
inductive TensorError where
  | keyError (species : String)
  | typeErrorUnsupportedOrder (order : Nat)
  | indexError
deriving DecidableEq, Repr

/-- `scaling_groups.get(rxn.scaling_group_id, 1.0)`: look up the
reaction's scaling-group id among the integer-keyed scaling groups,
defaulting to a factor of 1. -/
def scale_factor (scaling_groups : List (Int × ℚ)) (rxn : ElementaryReaction) : ℚ :=
  match rxn.scaling_group_id with
  | none => 1
  | some gid => (alookup scaling_groups gid).getD 1

/-- The list comprehension `[idxs_by_species[s] for s in rxn.reactants]`;
a missing species raises `KeyError` at its first occurrence. -/
def lookupIdxs (idxs_by_species : List (String × Nat)) :
    List String → Except TensorError (List Nat)
  | [] => .ok []
  | s :: rest =>
    match alookup idxs_by_species s with
    | none => .error (.keyError s)
    | some i =>
      match lookupIdxs idxs_by_species rest with
      | .error e => .error e
      | .ok is => .ok (i :: is)

/-- Inner loop body of `compute_rate_const_tensors` for one
`(sign, rxn)` pair: resolve reactant indices, then write
`sign * scale_factor * rate_const_value` into the tensor selected by
the reaction order.  For an order outside 1 and 2 the dict `.get`
yields `None` and, since the loop body does not skip, the assignment
into `None` raises `TypeError`. -/
def applyContribution (idxs_by_species : List (String × Nat))
    (scaling_groups : List (Int × ℚ)) (n : Nat) (curr_spec_idx : Nat)
    (st : RateConstTensors) (sr : Int × ElementaryReaction) :
    Except TensorError RateConstTensors :=
  let sign := sr.1
  let rxn := sr.2
  match lookupIdxs idxs_by_species rxn.reactants with
  | .error e => .error e
  | .ok reactant_idxs =>
    let v := (sign : ℚ) * scale_factor scaling_groups rxn * rxn.rate_const_value
    match reactant_idxs with
    | [j] =>
      if curr_spec_idx < n ∧ j < n then
        .ok ⟨set2 st.t1 curr_spec_idx j v, st.t2⟩
      else .error .indexError
    | [j, k] =>
      if curr_spec_idx < n ∧ j < n ∧ k < n then
        .ok ⟨st.t1, set3 st.t2 curr_spec_idx j k v⟩
      else .error .indexError
    | _ => .error (.typeErrorUnsupportedOrder rxn.order)

/-- Fold `applyContribution` over a species' signed reaction list. -/
def applyAll (idxs_by_species : List (String × Nat))
    (scaling_groups : List (Int × ℚ)) (n : Nat) (curr_spec_idx : Nat) :
    List (Int × ElementaryReaction) → RateConstTensors →
    Except TensorError RateConstTensors
  | [], st => .ok st
  | sr :: rest, st =>
    match applyContribution idxs_by_species scaling_groups n curr_spec_idx st sr with
    | .error e => .error e
    | .ok st' => applyAll idxs_by_species scaling_groups n curr_spec_idx rest st'

/-- Outer loop of `compute_rate_const_tensors` over the per-species
contributing terms (in dict order): resolve the species' own index,
then process its signed reactions. -/
def computeAll (idxs_by_species : List (String × Nat))
    (scaling_groups : List (Int × ℚ)) (n : Nat) :
    List (String × StoichBalanceTerms) → RateConstTensors →
    Except TensorError RateConstTensors
  | [], st => .ok st
  | (species, sbt) :: rest, st =>
    match alookup idxs_by_species species with
    | none => .error (.keyError species)
    | some curr_spec_idx =>
      match applyAll idxs_by_species scaling_groups n curr_spec_idx sbt.signed_rxns st with
      | .error e => .error e
      | .ok st' => computeAll idxs_by_species scaling_groups n rest st'

/-- `compute_rate_const_tensors` from `kinetics/reactions.py`:
zero-initialize an `n × n` and an `n × n × n` tensor
(`n = len(idxs_by_species)`) and populate them from the signed
contributions. -/
def compute_rate_const_tensors (contributing_terms : List (String × StoichBalanceTerms))
    (idxs_by_species : List (String × Nat)) (scaling_groups : List (Int × ℚ)) :
    Except TensorError RateConstTensors :=
  let n := idxs_by_species.length
  computeAll idxs_by_species scaling_groups n contributing_terms ⟨zeros2 n, zeros3 n⟩

/-! ## Mass-action right-hand side (`kinetics/solvers.py`) -/

/-- Dot product of two ℚ-vectors (`np.dot` on equal-length 1-D arrays). -/
def dotQ (xs ys : List ℚ) : ℚ :=
  (List.zipWith (· * ·) xs ys).sum

/-- Matrix–vector product `np.dot(K, C)`. -/
def matVec (K : List (List ℚ)) (C : List ℚ) : List ℚ :=
  K.map (fun row => dotQ row C)

/-- Outer product `np.outer(C, C)` (entry `[i, j] = x i * y j`). -/
def outerQ (x y : List ℚ) : List (List ℚ) :=
  x.map (fun xi => y.map (fun yj => xi * yj))

/-- Frobenius-style double contraction of two matrices:
`sum over j, k of M[j, k] * N[j, k]`. -/
def ddotQ (M N : List (List ℚ)) : ℚ :=
  (List.zipWith dotQ M N).sum

/-- `np.tensordot(K2, C2)` with the default two contracted axes:
`result[i] = sum over j, k of K2[i, j, k] * C2[j, k]`. -/
def tensordot2 (K2 : List (List (List ℚ))) (C2 : List (List ℚ)) : List ℚ :=
  K2.map (fun slab => ddotQ slab C2)

/-- Elementwise vector addition. -/
def vecAdd (x y : List ℚ) : List ℚ :=
  List.zipWith (· + ·) x y

/-- `law_of_mass_action` closure from `integrate_reaction_network`:
`np.dot(K, C) + np.tensordot(K2, np.outer(C, C))`.  The time argument
`t` is accepted (the solver passes it) but never used. -/
def law_of_mass_action (t : ℚ) (C : List ℚ) (tensors : RateConstTensors) : List ℚ :=
  let K := tensors.t1
  let K2 := tensors.t2
  let C2 := outerQ C C
  vecAdd (matVec K C) (tensordot2 K2 C2)

/-- The spec's wording of the right-hand side, written independently as
index sums: entry `i` is the rank-2 contraction with `C` plus the rank-3
double contraction with the outer product of `C` with itself. -/
def mass_action_rhs_spec (K : List (List ℚ)) (K2 : List (List (List ℚ)))
    (C : List ℚ) : List ℚ :=
  (List.range C.length).map (fun i =>
    (∑ j ∈ Finset.range C.length, (K.getD i []).getD j 0 * C.getD j 0) +
      ∑ j ∈ Finset.range C.length, ∑ k ∈ Finset.range C.length,
        ((K2.getD i []).getD j []).getD k 0 * (C.getD j 0 * C.getD k 0))

/-! ## Concrete networks used in the theorems -/

/-- First-order reaction A → B with rate constant `k1 = 1`. -/
def rxn_A_to_B : ElementaryReaction := ⟨["A"], ["B"], 1, "k1", "", none⟩

/-- First-order reaction B → A with rate constant `k2 = 2`. -/
def rxn_B_to_A : ElementaryReaction := ⟨["B"], ["A"], 2, "k2", "", none⟩

/-- Second-order reaction A + A → B with rate constant `k = 1`. -/
def rxn_AA_to_B : ElementaryReaction := ⟨["A", "A"], ["B"], 1, "k", "", none⟩

/-- Third-order reaction A + B + C → D. -/
def rxn_ABC_to_D : ElementaryReaction := ⟨["A", "B", "C"], ["D"], 1, "k3", "", none⟩

/-- Degenerate zeroth-order reaction ∅ → E (empty reactant list). -/
def rxn_to_E : ElementaryReaction := ⟨[], ["E"], 1, "k0", "", none⟩

/-- Species index map covering exactly A and B. -/
def idxsAB : List (String × Nat) := [("A", 0), ("B", 1)]

/-- Species index map covering A, B, C, D. -/
def idxsABCD : List (String × Nat) := [("A", 0), ("B", 1), ("C", 2), ("D", 3)]

/-- Contributing terms compiled from the single reaction A + A → B. -/
def termsAA : List (String × StoichBalanceTerms) :=
  [("B", ⟨[rxn_AA_to_B], []⟩), ("A", ⟨[], [rxn_AA_to_B]⟩)]

/-! ## Claim theorems -/

/-- C1: the claim says a reaction of order outside 1 and 2 is skipped
with a warning and `compute_rate_const_tensors` returns normally.  On
the code this is false: after logging the warning the loop body still
executes `rate_const_tensor[curr_spec_idx, *reactant_idxs] = ...` with
`rate_const_tensor = None`, raising `TypeError`.  This theorem
evaluates the embedded pipeline at a third-order reaction and at an
empty-reactant reaction, showing both runs abort with the modelled
`TypeError` instead of returning. -/
theorem C1_unsupported_order_raises_type_error :
    (∃ rc terms, compile_reaction_network [rxn_ABC_to_D] = .ok (rc, terms) ∧
      compute_rate_const_tensors terms idxsABCD [] =
        .error (.typeErrorUnsupportedOrder 3)) ∧
    (∃ rc terms, compile_reaction_network [rxn_to_E] = .ok (rc, terms) ∧
      compute_rate_const_tensors terms [("E", 0)] [] =
        .error (.typeErrorUnsupportedOrder 0)) :=
  ⟨⟨_, _, rfl, rfl⟩, ⟨_, _, rfl, rfl⟩⟩

/-- C3: the claim (and the source's own docstring and return-type
annotation) say `compile_reaction_network` also generates and returns a
species index map.  The source's `return` statement yields only the
rate-constant mapping and the per-species stoichiometry mapping: here
the full return value for a one-reaction network is exhibited, and it
contains no species-to-index assignment. -/
theorem C3_compile_returns_no_species_index_map :
    compile_reaction_network [rxn_A_to_B] =
      .ok ([("k1", 1)], [("B", ⟨[rxn_A_to_B], []⟩), ("A", ⟨[], [rxn_A_to_B]⟩)]) :=
  rfl

/-- C6: for A + A → B (k = 1) with A at index 0 and B at index 1, the
consumption set of A holds the reaction exactly once (set semantics
deduplicate the two reactant occurrences), the rank-3 tensor gets
entry `[1, 0, 0] = k` and `[0, 0, 0] = -k`, and the rank-2 tensor stays
zero. -/
theorem C6_double_reactant_single_write :
    compile_reaction_network [rxn_AA_to_B] = .ok ([("k", 1)], termsAA) ∧
    compute_rate_const_tensors termsAA idxsAB [] =
      .ok ⟨zeros2 2, [[[-1, 0], [0, 0]], [[1, 0], [0, 0]]]⟩ ∧
    get3 [[[-1, 0], [0, 0]], [[1, 0], [0, 0]]] 1 0 0 = 1 ∧
    get3 [[[-1, 0], [0, 0]], [[1, 0], [0, 0]]] 0 0 0 = -1 := by
  refine ⟨rfl, ?_, rfl, rfl⟩
  simp [compute_rate_const_tensors, computeAll, applyAll, applyContribution,
    lookupIdxs, alookup, scale_factor, StoichBalanceTerms.signed_rxns, termsAA,
    idxsAB, rxn_AA_to_B, set2, set3, zeros2, zeros3, zeros1]

/-- C9: reversing a reaction twice restores the reactant and product
lists, for every choice of reverse rate-constant values and key/name
overrides. -/
theorem C9_reverse_reverse_roundtrip (r : ElementaryReaction) (v1 v2 : ℚ)
    (k1 k2 m1 m2 : Option String) (s1 s2 : String) :
    ((r.create_reverse_reaction v1 k1 m1 s1).create_reverse_reaction v2 k2 m2 s2).reactants
        = r.reactants ∧
    ((r.create_reverse_reaction v1 k1 m1 s1).create_reverse_reaction v2 k2 m2 s2).products
        = r.products :=
  ⟨rfl, rfl⟩

/-- C10: `create_reverse_reaction` never propagates the forward
reaction's scaling-group id — the reverse reaction's id is `none`, so
during tensor compilation its scale factor is the default 1. -/
theorem C10_reverse_has_no_scaling_group (r : ElementaryReaction) (v : ℚ)
    (k m : Option String) (s : String) (scaling : List (Int × ℚ)) :
    (r.create_reverse_reaction v k m s).scaling_group_id = none ∧
    scale_factor scaling (r.create_reverse_reaction v k m s) = 1 :=
  ⟨rfl, rfl⟩

/-- A → B with symbolic rate-constant value `k1`. -/
def rxnAB_k (k1 : ℚ) : ElementaryReaction := ⟨["A"], ["B"], k1, "k1", "", none⟩

/-- B → A with symbolic rate-constant value `k2`. -/
def rxnBA_k (k2 : ℚ) : ElementaryReaction := ⟨["B"], ["A"], k2, "k2", "", none⟩

/-- Contributing terms compiled from `[A → B (k1), B → A (k2)]`. -/
def termsTwoWay (k1 k2 : ℚ) : List (String × StoichBalanceTerms) :=
  [("B", ⟨[rxnAB_k k1], [rxnBA_k k2]⟩), ("A", ⟨[rxnBA_k k2], [rxnAB_k k1]⟩)]

/-- C2 counterexample: for the network A → B (`k1` = 1), B → A (`k2` = 2)
with `index(A) = 0`, `index(B) = 1`, the claim says every rank-2 entry
other than `[index(B), index(A)]` and `[index(A), index(B)]` is 0.  The
code also writes the consumption contributions on the diagonal: the
compiled entry `[index(A), index(A)]` is `-k1 = -1 ≠ 0`. -/
theorem C2_counterexample_diagonal_nonzero :
    compile_reaction_network [rxnAB_k 1, rxnBA_k 2] =
      .ok ([("k1", 1), ("k2", 2)], termsTwoWay 1 2) ∧
    compute_rate_const_tensors (termsTwoWay 1 2) idxsAB [] =
      .ok ⟨[[-1, 2], [1, -2]], zeros3 2⟩ ∧
    get2 [[-1, 2], [1, -2]] 0 0 ≠ 0 := by
  refine ⟨rfl, ?_, by decide⟩
  simp [compute_rate_const_tensors, computeAll, applyAll, applyContribution,
    lookupIdxs, alookup, scale_factor, StoichBalanceTerms.signed_rxns, termsTwoWay,
    idxsAB, rxnAB_k, rxnBA_k, set2, set3, zeros2, zeros3, zeros1]

/-- C2 amended: in the network A → B (`k1`), B → A (`k2`) the rank-2
tensor has the generation entries `[index(B), index(A)] = k1` and
`[index(A), index(B)] = k2`, and additionally the consumption entries
`[index(A), index(A)] = -k1` and `[index(B), index(B)] = -k2`; every
remaining rank-2 entry is 0 and the rank-3 tensor is all zero.  Each
in-range contribution writes `sign * scale_factor * rate_const_value`
at its (row = species, columns = reactants) cell. -/
theorem C2_amended_two_reaction_network (k1 k2 : ℚ) :
    compile_reaction_network [rxnAB_k k1, rxnBA_k k2] =
      .ok ([("k1", k1), ("k2", k2)], termsTwoWay k1 k2) ∧
    compute_rate_const_tensors (termsTwoWay k1 k2) idxsAB [] =
      .ok ⟨[[-k1, k2], [k1, -k2]], zeros3 2⟩ := by
  refine ⟨rfl, ?_⟩
  simp [compute_rate_const_tensors, computeAll, applyAll, applyContribution,
    lookupIdxs, alookup, scale_factor, StoichBalanceTerms.signed_rxns, termsTwoWay,
    idxsAB, rxnAB_k, rxnBA_k, set2, set3, zeros2, zeros3, zeros1]

/-- A → B with rate constant 2 tagged with scaling group 1. -/
def rxn_AB_grp : ElementaryReaction := ⟨["A"], ["B"], 2, "k", "", some 1⟩

/-- Contributing terms compiled from the single grouped reaction. -/
def terms_grp : List (String × StoichBalanceTerms) :=
  [("B", ⟨[rxn_AB_grp], []⟩), ("A", ⟨[], [rxn_AB_grp]⟩)]

/-- C7: the scale factor of a reaction is the mapped factor of its
scaling-group id when the id is present in the mapping, and 1 when the
reaction has no id or the id is absent; concretely, A → B with k = 2 in
group 1 under the mapping `1 ↦ 3` compiles to a generation entry of 6,
and under the empty mapping to 2. -/
theorem C7_scaling_group_factor :
    (∀ (scaling : List (Int × ℚ)) (rxn : ElementaryReaction),
      rxn.scaling_group_id = none → scale_factor scaling rxn = 1) ∧
    (∀ (scaling : List (Int × ℚ)) (rxn : ElementaryReaction) (g : Int),
      rxn.scaling_group_id = some g → alookup scaling g = none →
        scale_factor scaling rxn = 1) ∧
    (∀ (scaling : List (Int × ℚ)) (rxn : ElementaryReaction) (g : Int) (f : ℚ),
      rxn.scaling_group_id = some g → alookup scaling g = some f →
        scale_factor scaling rxn = f) ∧
    compile_reaction_network [rxn_AB_grp] = .ok ([("k", 2)], terms_grp) ∧
    compute_rate_const_tensors terms_grp idxsAB [((1 : Int), (3 : ℚ))] =
      .ok ⟨[[-6, 0], [6, 0]], zeros3 2⟩ ∧
    compute_rate_const_tensors terms_grp idxsAB [] =
      .ok ⟨[[-2, 0], [2, 0]], zeros3 2⟩ := by
  refine ⟨?_, ?_, ?_, rfl, ?_, ?_⟩
  · intro scaling rxn h
    simp [scale_factor, h]
  · intro scaling rxn g h hl
    simp [scale_factor, h, hl]
  · intro scaling rxn g f h hl
    simp [scale_factor, h, hl]
  · simp [compute_rate_const_tensors, computeAll, applyAll, applyContribution,
      lookupIdxs, alookup, scale_factor, StoichBalanceTerms.signed_rxns, terms_grp,
      idxsAB, rxn_AB_grp, set2, set3, zeros2, zeros3, zeros1]
    norm_num
  · simp [compute_rate_const_tensors, computeAll, applyAll, applyContribution,
      lookupIdxs, alookup, scale_factor, StoichBalanceTerms.signed_rxns, terms_grp,
      idxsAB, rxn_AB_grp, set2, set3, zeros2, zeros3, zeros1]

/-- Witness for C7: the three scale-factor branches evaluated at
concrete inputs through the theorem itself. -/
theorem C7_scaling_group_factor_witness :
    scale_factor [((1 : Int), (3 : ℚ))] rxn_A_to_B = 1 ∧
    scale_factor [] rxn_AB_grp = 1 ∧
    scale_factor [((1 : Int), (3 : ℚ))] rxn_AB_grp = 3 :=
  ⟨C7_scaling_group_factor.1 _ _ rfl,
   C7_scaling_group_factor.2.1 _ _ 1 rfl rfl,
   C7_scaling_group_factor.2.2.1 _ _ 1 3 rfl rfl⟩

/-! ## Duplicate rate-constant keys (C4) -/

/-- `alookup` misses exactly the keys absent from the association list. -/
theorem alookup_eq_none_iff {β : Type} (d : List (String × β)) (k : String) :
    alookup d k = none ↔ k ∉ d.map Prod.fst := by
  induction d with
  | nil => simp [alookup]
  | cons p rest ih =>
    obtain ⟨k', v⟩ := p
    by_cases h : k' = k
    · subst h
      simp [alookup]
    · have hstep : alookup ((k', v) :: rest) k = alookup rest k := by
        simp [alookup, h]
      rw [hstep, ih]
      simp [Ne.symm h]

/-- If no rate-constant key repeats (neither among the already registered
keys nor among the remaining reactions), the compile loop succeeds. -/
theorem compileGo_ok_of_nodup (rxns : List ElementaryReaction)
    (rate_consts : List (String × ℚ)) (terms : List (String × StoichBalanceTerms))
    (h : (rate_consts.map Prod.fst ++ rxns.map (fun r => r.rate_const_key)).Nodup) :
    ∃ out_consts out_terms,
      compileGo rxns rate_consts terms = .ok (out_consts, out_terms) := by
  induction rxns generalizing rate_consts terms with
  | nil => exact ⟨rate_consts, terms, rfl⟩
  | cons rxn rest ih =>
    have hdisj : (rate_consts.map Prod.fst).Disjoint
        ((rxn :: rest).map (fun r => r.rate_const_key)) :=
      (List.nodup_append.mp h).2.2
    have hkey : rxn.rate_const_key ∉ rate_consts.map Prod.fst :=
      fun hmem => hdisj hmem (by simp)
    have hl : alookup rate_consts rxn.rate_const_key = none :=
      (alookup_eq_none_iff _ _).mpr hkey
    have step : compileGo (rxn :: rest) rate_consts terms =
        compileGo rest (rate_consts ++ [(rxn.rate_const_key, rxn.rate_const_value)])
          (registerSpecies terms rxn) := by
      simp [compileGo, hl]
    rw [step]
    apply ih
    simpa [List.append_assoc] using h

/-- If some rate-constant key repeats, the compile loop aborts with a
`duplicateRateConst` error naming an offending reaction from the input. -/
theorem compileGo_error_of_dup (rxns : List ElementaryReaction)
    (rate_consts : List (String × ℚ)) (terms : List (String × StoichBalanceTerms))
    (hrc : (rate_consts.map Prod.fst).Nodup)
    (h : ¬ (rate_consts.map Prod.fst ++ rxns.map (fun r => r.rate_const_key)).Nodup) :
    ∃ r, r ∈ rxns ∧ compileGo rxns rate_consts terms =
      .error (.duplicateRateConst r.rate_const_key r.rate_const_value r) := by
  induction rxns generalizing rate_consts terms with
  | nil => exact absurd (by simpa using hrc) h
  | cons rxn rest ih =>
    by_cases hl : (alookup rate_consts rxn.rate_const_key).isSome
    · refine ⟨rxn, by simp, ?_⟩
      simp [compileGo, hl]
    · have hnone : alookup rate_consts rxn.rate_const_key = none :=
        Option.not_isSome_iff_eq_none.mp hl
      have hkey : rxn.rate_const_key ∉ rate_consts.map Prod.fst :=
        (alookup_eq_none_iff _ _).mp hnone
      have step : compileGo (rxn :: rest) rate_consts terms =
          compileGo rest (rate_consts ++ [(rxn.rate_const_key, rxn.rate_const_value)])
            (registerSpecies terms rxn) := by
        simp [compileGo, hnone]
      have hrc' : ((rate_consts ++
          [(rxn.rate_const_key, rxn.rate_const_value)]).map Prod.fst).Nodup := by
        rw [List.map_append, List.nodup_append]
        exact ⟨hrc, List.nodup_singleton _, List.disjoint_singleton.mpr hkey⟩
      have h' : ¬ (((rate_consts ++ [(rxn.rate_const_key, rxn.rate_const_value)]).map
          Prod.fst) ++ rest.map (fun r => r.rate_const_key)).Nodup := by
        intro hn
        exact h (by simpa [List.append_assoc] using hn)
      obtain ⟨r, hr, heq⟩ := ih _ (registerSpecies terms rxn) hrc' h'
      exact ⟨r, List.mem_cons_of_mem _ hr, by rw [step]; exact heq⟩

/-- C4: `compile_reaction_network` returns both mappings when all
rate-constant keys are pairwise distinct, and aborts with a
duplicate-rate-constant error — naming the offending key, value and
reaction, and carrying no partial result — when two reactions share a
key. -/
theorem C4_duplicate_key_aborts (rxns : List ElementaryReaction) :
    ((rxns.map (fun r => r.rate_const_key)).Nodup →
      ∃ rate_consts terms,
        compile_reaction_network rxns = .ok (rate_consts, terms)) ∧
    (¬ (rxns.map (fun r => r.rate_const_key)).Nodup →
      ∃ r, r ∈ rxns ∧ compile_reaction_network rxns =
        .error (.duplicateRateConst r.rate_const_key r.rate_const_value r)) := by
  constructor
  · intro h
    exact compileGo_ok_of_nodup rxns [] [] (by simpa using h)
  · intro h
    exact compileGo_error_of_dup rxns [] [] (by simp) (by simpa using h)

/-- A → C reusing the rate-constant key `k1` of `rxn_A_to_B`. -/
def rxn_A_to_C_dup : ElementaryReaction := ⟨["A"], ["C"], 5, "k1", "", none⟩

/-- Witness for C4: a distinct-key network compiles, and a network with
a repeated key `k1` aborts with the duplicate-key error. -/
theorem C4_duplicate_key_aborts_witness :
    (∃ rate_consts terms,
      compile_reaction_network [rxn_A_to_B] = .ok (rate_consts, terms)) ∧
    (∃ r, r ∈ [rxn_A_to_B, rxn_A_to_C_dup] ∧
      compile_reaction_network [rxn_A_to_B, rxn_A_to_C_dup] =
        .error (.duplicateRateConst r.rate_const_key r.rate_const_value r)) :=
  ⟨(C4_duplicate_key_aborts [rxn_A_to_B]).1 (by decide),
   (C4_duplicate_key_aborts [rxn_A_to_B, rxn_A_to_C_dup]).2 (by decide)⟩

/-! ## Overwrite-on-collision (C5) -/

/-- Reading back the cell just written by `List.set`. -/
theorem getD_set_self {α : Type} (l : List α) (i : Nat) (v d : α)
    (h : i < l.length) : (l.set i v).getD i d = v := by
  rw [List.getD_eq_getElem _ _ (by simpa using h)]
  exact List.getElem_set_self _

/-- Reading back the cell just written by `set3`. -/
theorem get3_set3_self (m : List (List (List ℚ))) (i j k : Nat) (v : ℚ)
    (hi : i < m.length) (hj : j < (m.getD i []).length)
    (hk : k < ((m.getD i []).getD j []).length) :
    get3 (set3 m i j k v) i j k = v := by
  unfold get3 set3 set2
  rw [getD_set_self _ _ _ _ hi, getD_set_self _ _ _ _ hj,
    getD_set_self _ _ _ _ hk]

/-- C5: an in-range second-order contribution overwrites its tensor
cell: whatever tensors `st` already hold (in particular a value written
there by an earlier-processed reaction), after processing `(sign, rxn)`
the cell `[i, j, k]` equals exactly `sign * scale_factor * rate_const_value`
— a single signed, scaled contribution, never the accumulated sum. -/
theorem C5_later_write_overwrites (idxs_by_species : List (String × Nat))
    (scaling_groups : List (Int × ℚ)) (n i j k : Nat) (st : RateConstTensors)
    (sign : Int) (rxn : ElementaryReaction)
    (hlk : lookupIdxs idxs_by_species rxn.reactants = .ok [j, k])
    (hi : i < n) (hj : j < n) (hk : k < n)
    (h1 : st.t2.length = n) (h2 : (st.t2.getD i []).length = n)
    (h3 : ((st.t2.getD i []).getD j []).length = n) :
    ∃ st', applyContribution idxs_by_species scaling_groups n i st (sign, rxn) =
        .ok st' ∧
      get3 st'.t2 i j k =
        (sign : ℚ) * scale_factor scaling_groups rxn * rxn.rate_const_value ∧
      st'.t1 = st.t1 := by
  refine ⟨⟨st.t1, set3 st.t2 i j k
    ((sign : ℚ) * scale_factor scaling_groups rxn * rxn.rate_const_value)⟩, ?_, ?_, rfl⟩
  · simp only [applyContribution, hlk]
    rw [if_pos ⟨hi, hj, hk⟩]
  · exact get3_set3_self _ _ _ _ _ (h1 ▸ hi) (h2 ▸ hj) (h3 ▸ hk)

/-- Second-order reaction A + B → C with rate constant 1. -/
def rxn_AB_to_C_first : ElementaryReaction := ⟨["A", "B"], ["C"], 1, "ka", "", none⟩

/-- Second-order reaction A + B → C with rate constant 5 under a
different key: it targets the same tensor cell as `rxn_AB_to_C_first`. -/
def rxn_AB_to_C_second : ElementaryReaction := ⟨["A", "B"], ["C"], 5, "kb", "", none⟩

/-- Species index map covering A, B, C. -/
def idxsABC : List (String × Nat) := [("A", 0), ("B", 1), ("C", 2)]

/-- Witness for C5: starting from the tensors holding the first
reaction's write (value 1 at cell `[2, 0, 0+1]`), processing the second
reaction leaves exactly its own contribution `5` in the cell — not the
sum `6`. -/
theorem C5_later_write_overwrites_witness :
    ∃ st', applyContribution idxsABC [] 3 2
        ⟨zeros2 3, set3 (zeros3 3) 2 0 1 1⟩ ((1 : Int), rxn_AB_to_C_second) =
        .ok st' ∧
      get3 st'.t2 2 0 1 =
        ((1 : Int) : ℚ) * scale_factor [] rxn_AB_to_C_second *
          rxn_AB_to_C_second.rate_const_value ∧
      st'.t1 = (⟨zeros2 3, set3 (zeros3 3) 2 0 1 1⟩ : RateConstTensors).t1 :=
  C5_later_write_overwrites idxsABC [] 3 2 0 1
    ⟨zeros2 3, set3 (zeros3 3) 2 0 1 1⟩ 1 rxn_AB_to_C_second
    (by rfl) (by decide) (by decide) (by decide)
    (by decide) (by decide) (by decide)

/-! ## Mass-action right-hand side (C8) -/

/-- Sum of an elementwise `zipWith` as an indexed finite sum. -/
theorem zipWith_sum_eq {α β : Type} (f : α → β → ℚ) (dx : α) (dy : β) :
    ∀ (n : Nat) (xs : List α) (ys : List β), xs.length = n → ys.length = n →
    (List.zipWith f xs ys).sum =
      ∑ i ∈ Finset.range n, f (xs.getD i dx) (ys.getD i dy) := by
  intro n
  induction n with
  | zero =>
    intro xs ys hx hy
    rw [List.length_eq_zero.mp hx, List.length_eq_zero.mp hy]
    simp
  | succ m ih =>
    intro xs ys hx hy
    cases xs with
    | nil => simp at hx
    | cons x xs' =>
      cases ys with
      | nil => simp at hy
      | cons y ys' =>
        have hx' : xs'.length = m := by simpa using hx
        have hy' : ys'.length = m := by simpa using hy
        rw [Finset.sum_range_succ']
        simp only [List.getD_cons_succ, List.getD_cons_zero]
        rw [← ih xs' ys' hx' hy']
        simp [add_comm]

/-- `dotQ` as an indexed sum. -/
theorem dotQ_eq_sum (n : Nat) (xs ys : List ℚ) (hx : xs.length = n)
    (hy : ys.length = n) :
    dotQ xs ys = ∑ i ∈ Finset.range n, xs.getD i 0 * ys.getD i 0 :=
  zipWith_sum_eq (· * ·) 0 0 n xs ys hx hy

/-- `ddotQ` as an indexed sum of row dot products. -/
theorem ddotQ_eq_sum (n : Nat) (M N : List (List ℚ)) (hM : M.length = n)
    (hN : N.length = n) :
    ddotQ M N = ∑ j ∈ Finset.range n, dotQ (M.getD j []) (N.getD j []) :=
  zipWith_sum_eq dotQ [] [] n M N hM hN

/-- C8: the right-hand side built by `integrate_reaction_network` is
independent of the time argument, and on well-shaped tensors it equals
the spec's formula: rank-2 tensor contracted with `C` plus rank-3
tensor doubly contracted with the outer product of `C` with itself. -/
theorem C8_mass_action_autonomous_and_correct (ta tb : ℚ) (C : List ℚ)
    (T : RateConstTensors)
    (hK : T.t1.length = C.length)
    (hKrow : ∀ row ∈ T.t1, row.length = C.length)
    (hK2 : T.t2.length = C.length)
    (hK2slab : ∀ M ∈ T.t2, M.length = C.length ∧ ∀ row ∈ M, row.length = C.length) :
    law_of_mass_action ta C T = law_of_mass_action tb C T ∧
    law_of_mass_action ta C T = mass_action_rhs_spec T.t1 T.t2 C := by
  refine ⟨rfl, ?_⟩
  have houter_len : (outerQ C C).length = C.length := by
    simp [outerQ]
  have hlaw_len : (law_of_mass_action ta C T).length = C.length := by
    simp [law_of_mass_action, vecAdd, matVec, tensordot2, hK, hK2, houter_len]
  have hspec_len : (mass_action_rhs_spec T.t1 T.t2 C).length = C.length := by
    simp [mass_action_rhs_spec]
  apply List.ext_getElem (by rw [hlaw_len, hspec_len])
  intro i h₁ h₂
  have hin : i < C.length := by rwa [hlaw_len] at h₁
  have hiK : i < T.t1.length := by rwa [hK]
  have hiK2 : i < T.t2.length := by rwa [hK2]
  have hmatVec_len : (matVec T.t1 C).length = C.length := by simp [matVec, hK]
  have htd_len : (tensordot2 T.t2 (outerQ C C)).length = C.length := by
    simp [tensordot2, hK2]
  -- reduce the spec-side entry
  have hspec : (mass_action_rhs_spec T.t1 T.t2 C)[i] =
      (∑ j ∈ Finset.range C.length, (T.t1.getD i []).getD j 0 * C.getD j 0) +
        ∑ j ∈ Finset.range C.length, ∑ k ∈ Finset.range C.length,
          ((T.t2.getD i []).getD j []).getD k 0 * (C.getD j 0 * C.getD k 0) := by
    simp only [mass_action_rhs_spec, List.getElem_map, List.getElem_range]
  rw [hspec]
  -- reduce the code-side entry
  have him : i < (matVec T.t1 C).length := by rwa [hmatVec_len]
  have hit : i < (tensordot2 T.t2 (outerQ C C)).length := by rwa [htd_len]
  have hcode : (law_of_mass_action ta C T)[i] =
      (matVec T.t1 C)[i] + (tensordot2 T.t2 (outerQ C C))[i] := by
    simp only [law_of_mass_action, vecAdd]
    exact List.getElem_zipWith
  rw [hcode]
  have hrow_mem : T.t1[i] ∈ T.t1 := List.getElem_mem hiK
  have hrow_len : (T.t1[i]).length = C.length := hKrow _ hrow_mem
  have hslab_mem : T.t2[i] ∈ T.t2 := List.getElem_mem hiK2
  have hslab_len : (T.t2[i]).length = C.length := (hK2slab _ hslab_mem).1
  have hslab_rows : ∀ row ∈ T.t2[i], row.length = C.length :=
    (hK2slab _ hslab_mem).2
  -- first-order part
  have hfirst : (matVec T.t1 C)[i] =
      ∑ j ∈ Finset.range C.length, (T.t1.getD i []).getD j 0 * C.getD j 0 := by
    have : (matVec T.t1 C)[i] = dotQ (T.t1[i]) C := by
      simp only [matVec, List.getElem_map]
    rw [this, dotQ_eq_sum C.length _ C hrow_len rfl,
      List.getD_eq_getElem T.t1 [] hiK]
  -- second-order part
  have hCouter : ∀ j, j < C.length → (outerQ C C).getD j [] =
      C.map (fun yk => C.getD j 0 * yk) := by
    intro j hj
    rw [List.getD_eq_getElem _ _ (by rwa [houter_len]),
      List.getD_eq_getElem C 0 hj]
    simp only [outerQ, List.getElem_map]
  have hsecond : (tensordot2 T.t2 (outerQ C C))[i] =
      ∑ j ∈ Finset.range C.length, ∑ k ∈ Finset.range C.length,
        ((T.t2.getD i []).getD j []).getD k 0 * (C.getD j 0 * C.getD k 0) := by
    have hstep : (tensordot2 T.t2 (outerQ C C))[i] =
        ddotQ (T.t2[i]) (outerQ C C) := by
      simp only [tensordot2, List.getElem_map]
    rw [hstep, ddotQ_eq_sum C.length _ _ hslab_len houter_len,
      List.getD_eq_getElem T.t2 [] hiK2]
    apply Finset.sum_congr rfl
    intro j hj
    have hjn : j < C.length := Finset.mem_range.mp hj
    rw [hCouter j hjn]
    have hrowj_len : ((T.t2[i]).getD j []).length = C.length := by
      rw [List.getD_eq_getElem _ _ (by rwa [hslab_len])]
      exact hslab_rows _ (List.getElem_mem _)
    rw [dotQ_eq_sum C.length _ _ hrowj_len (by simp)]
    apply Finset.sum_congr rfl
    intro k hk
    have hkn : k < C.length := Finset.mem_range.mp hk
    rw [List.getD_eq_getElem (C.map _) 0 (by simpa using hkn),
      List.getD_eq_getElem C 0 hkn]
    simp only [List.getElem_map]
  rw [hfirst, hsecond]

/-- Tensors of the two-reaction network, used by the C8 witness. -/
def tensorsC8 : RateConstTensors := ⟨[[-1, 2], [1, -2]], zeros3 2⟩

/-- Witness for C8: the theorem applied to the concrete two-species
tensor pair and concentration vector `[1, 2]` at times 0 and 5. -/
theorem C8_mass_action_witness :
    law_of_mass_action 0 [1, 2] tensorsC8 = law_of_mass_action 5 [1, 2] tensorsC8 ∧
    law_of_mass_action 0 [1, 2] tensorsC8 =
      mass_action_rhs_spec tensorsC8.t1 tensorsC8.t2 [1, 2] :=
  C8_mass_action_autonomous_and_correct 0 5 [1, 2] tensorsC8
    (by decide) (by decide) (by decide) (by decide)

end Biokinetics
